import Mathlib

/-!
# Session Lifecycle & Workflow Reconciliation Engine — formal model

A shallow embedding of the session/workflow lifecycle manager of the
VIP Python client (`vip_client`): session state and its set-once
properties, workflow records and status reconciliation, input fan-out
into parallel jobs, idempotent transfers, persistence round-trip, and
the cleanup (`finish`) frame condition.

The repository sources available here contain the documentation
(`doc/vipsession.md`, `README.md`), examples and notebooks, but not the
Python modules (`VipSession.py`, `VipLauncher.py`, `vip.py`) themselves.
Definitions below are therefore modelled from the design specification
and from the repository documentation, as flagged in each doc comment.
-/

namespace VipClient

/-- Workflow status, as enumerated by the spec (§3, WorkflowRecord):
Submitted, Running, Finished, Failed, Killed, with Unknown the value
before the first successful status refresh. -/
inductive WfStatus
  | Submitted
  | Running
  | Finished
  | Failed
  | Killed
  | Unknown
  deriving DecidableEq, Repr

/-- Terminal classification from the spec (§4.3): Finished, Failed and
Killed are terminal; Submitted, Running and Unknown are not. -/
def isTerminal : WfStatus → Bool
  | .Finished => true
  | .Failed => true
  | .Killed => true
  | _ => false

/-- One remote execution, as in the spec's data model (§3):
status, start time reported by the gateway, output descriptors
(remote paths), and the set of output paths already downloaded. -/
structure WorkflowRecord where
  status : WfStatus
  start_time : Nat
  outputs : List String
  downloaded : List String
  deriving DecidableEq, Repr

/-- A status report returned by the Remote Gateway for one workflow:
current status, start time, and the outputs when available. -/
structure GatewayReport where
  status : WfStatus
  start_time : Nat
  outputs : List String
  deriving DecidableEq, Repr

/-- Modelled from the spec: `refresh(workflow_id)` (§4.3) queries the
Remote Gateway for the current status and updates the record, but never
downgrades a terminal status back to non-terminal — a non-terminal
report for an already-terminal record is ignored, not applied. When the
report is applied, outputs are populated only once the reported status
is terminal (§3). The Python module implementing this
(`VipSession.py` / `VipLauncher.py`) is not among the available
sources. -/
def refresh (rec : WorkflowRecord) (rep : GatewayReport) : WorkflowRecord :=
  if isTerminal rec.status && !isTerminal rep.status then
    rec
  else
    { rec with
      status := rep.status
      start_time := rep.start_time
      outputs := if isTerminal rep.status then rep.outputs else rec.outputs }

/-- Folding `refresh` over a whole sequence of gateway reports. -/
def refreshAll (rec : WorkflowRecord) (reps : List GatewayReport) : WorkflowRecord :=
  reps.foldl refresh rec

/-- A single input-parameter value: a literal value or a file
reference, as in the spec's tagged-variant data model (§3, §9). -/
inductive ParamValue
  | literal (s : String)
  | fileRef (p : String)
  deriving DecidableEq, Repr

/-- An entry of `input_settings`: a single value or an ordered list of
values; a list-valued parameter signals fan-out (§3). -/
inductive InputValue
  | single (v : ParamValue)
  | many (vs : List ParamValue)
  deriving DecidableEq, Repr

/-- Input settings: mapping from parameter name to value(s) (§3). -/
abbrev InputSettings := List (String × InputValue)

/-- Modelled from the spec and from the property table of
`doc/vipsession.md` ("Additional Properties"): the durable session
entity. Location fields and identity fields are `Option`-valued —
`none` means "not set / not overridden", in which case defaults derived
from `session_name` apply. `workflows` is the workflows inventory,
default `{}`. The Python class (`VipSession.py`) is not among the
available sources. -/
structure Session where
  session_name : String
  pipeline_id : Option String := none
  input_settings : Option InputSettings := none
  local_input_dir : Option String := none
  local_output_dir : Option String := none
  vip_input_dir : Option String := none
  vip_output_dir : Option String := none
  workflows : List (String × WorkflowRecord) := []
  deriving DecidableEq, Repr

/-- Fresh session with only the name set, every other property at its
default (`doc/vipsession.md`, "Additional Properties"). -/
def newSession (name : String) : Session :=
  { session_name := name }

/-- Default results location, per the documentation table:
`vip_outputs/<session_name>`. -/
def defaultLocalOutputDir (name : String) : String :=
  "vip_outputs/" ++ name

/-- Default dataset location on VIP, per the documentation table:
`/vip/Home/API/<session_name>/INPUTS`. -/
def defaultVipInputDir (name : String) : String :=
  "/vip/Home/API/" ++ name ++ "/INPUTS"

/-- Default results location on VIP, per the documentation table:
`/vip/Home/API/<session_name>/OUTPUTS`. -/
def defaultVipOutputDir (name : String) : String :=
  "/vip/Home/API/" ++ name ++ "/OUTPUTS"

/-- Effective local output directory: the override when set, else the
default derived from `session_name`. -/
def Session.effLocalOutputDir (s : Session) : String :=
  s.local_output_dir.getD (defaultLocalOutputDir s.session_name)

/-- Effective VIP input directory: the override when set, else the
default derived from `session_name`. -/
def Session.effVipInputDir (s : Session) : String :=
  s.vip_input_dir.getD (defaultVipInputDir s.session_name)

/-- Effective VIP output directory: the override when set, else the
default derived from `session_name`. -/
def Session.effVipOutputDir (s : Session) : String :=
  s.vip_output_dir.getD (defaultVipOutputDir s.session_name)

/-- The identity properties protected by the set-once guard (§3
invariant: `pipeline_id` and any location property). -/
inductive IdentityProp
  | pipeline_id
  | local_input_dir
  | local_output_dir
  | vip_input_dir
  | vip_output_dir
  deriving DecidableEq, Repr

/-- Python-level name of each identity property, as it appears in the
"already set" error message of `doc/vipsession.md`. -/
def propName : IdentityProp → String
  | .pipeline_id => "pipeline_id"
  | .local_input_dir => "local_input_dir"
  | .local_output_dir => "local_output_dir"
  | .vip_input_dir => "vip_input_dir"
  | .vip_output_dir => "vip_output_dir"

/-- Current value of an identity property. -/
def Session.get : Session → IdentityProp → Option String
  | s, .pipeline_id => s.pipeline_id
  | s, .local_input_dir => s.local_input_dir
  | s, .local_output_dir => s.local_output_dir
  | s, .vip_input_dir => s.vip_input_dir
  | s, .vip_output_dir => s.vip_output_dir

/-- Raw field update of an identity property (no guard). -/
def Session.put : Session → IdentityProp → Option String → Session
  | s, .pipeline_id, v => { s with pipeline_id := v }
  | s, .local_input_dir, v => { s with local_input_dir := v }
  | s, .local_output_dir, v => { s with local_output_dir := v }
  | s, .vip_input_dir, v => { s with vip_input_dir := v }
  | s, .vip_output_dir, v => { s with vip_output_dir := v }

/-- State-consistency error raised when re-setting an immutable
property (spec §4.1 / §7): carries the field name and the conflicting
values. -/
inductive SetError
  | alreadySet (prop : String) (oldVal newVal : String)
  deriving DecidableEq, Repr

/-- Modelled from the spec: `set(property, value)` (§4.1) fails with
`AlreadySetError` if the property is already defined and differs from
`value`; re-assignment of the same value is accepted (idempotent); an
unset property is simply assigned. On failure no mutated session is
produced, so the property is left unchanged. The Python descriptor
implementing this is not among the available sources; the
documentation (`doc/vipsession.md`, "Edit an Incorrect Property")
shows the failing behaviour. -/
def Session.set (s : Session) (p : IdentityProp) (v : String) :
    Except SetError Session :=
  match s.get p with
  | none => .ok (s.put p (some v))
  | some w => if w = v then .ok s else .error (.alreadySet (propName p) w v)

/-- Modelled from the spec: `clear(property)` (§4.1) removes a
property's value entirely; allowed at any time. -/
def Session.clear (s : Session) (p : IdentityProp) : Session :=
  s.put p none

/-- The lengths of the list-valued parameters of some input settings. -/
def listLengths (settings : InputSettings) : List Nat :=
  settings.filterMap fun kv =>
    match kv.2 with
    | .many vs => some vs.length
    | .single _ => none

/-- Whether all list-valued parameters have the same length (vacuously
true when no parameter is list-valued). -/
def listsConsistent (settings : InputSettings) : Bool :=
  match listLengths settings with
  | [] => true
  | l :: ls => ls.all (· == l)

/-- Number of jobs the settings expand to: the common list length, or 1
when every parameter holds a single value (`doc/vipsession.md`, "Jobs
and Workflows", rules 1 and 2). -/
def nbJobs (settings : InputSettings) : Nat :=
  match listLengths settings with
  | [] => 1
  | l :: _ => l

/-- A job specification: one concrete value per parameter name. -/
abbrev JobSpec := List (String × ParamValue)

/-- The i-th job's parameter binding: each single-valued parameter
keeps its value, each list-valued parameter takes its i-th element. -/
def jobSpec (settings : InputSettings) (i : Nat) : JobSpec :=
  settings.map fun kv =>
    (kv.1,
      match kv.2 with
      | .single v => v
      | .many vs => vs.getD i (.literal ""))

/-- Configuration error raised on malformed input settings (§4.3, §7). -/
inductive SubmitError
  | invalidInput (msg : String)
  deriving DecidableEq, Repr

/-- One call made to the Remote Gateway, recorded in a trace so that
"no remote call is made" is expressible. -/
inductive GatewayCall
  | submitJob (pid : String) (jobs : List JobSpec)
  deriving DecidableEq, Repr

/-- Modelled from the spec: the fan-out expansion of `submit` (§4.3)
turns the input settings into one job specification per element of the
(common) list length, or a single job when no parameter is
list-valued; list-valued parameters of mismatched lengths are an
`InvalidInputError`. The Python implementation is not among the
available sources. -/
def expandJobs (settings : InputSettings) : Except SubmitError (List JobSpec) :=
  if listsConsistent settings then
    .ok ((List.range (nbJobs settings)).map (jobSpec settings))
  else
    .error (.invalidInput "mismatched list lengths")

/-- Modelled from the spec: `submit` (§4.3) validates the input
settings first; on mismatched list lengths it fails with
`InvalidInputError` before any Remote Gateway call (empty call trace)
and registers nothing; otherwise it performs one submit-job gateway
call carrying all expanded job specifications and registers one
WorkflowRecord in `Submitted` state under the identifier assigned by
the gateway. -/
def submit (s : Session) (pid : String) (settings : InputSettings) (wid : String) :
    Except SubmitError Session × List GatewayCall :=
  match expandJobs settings with
  | .error e => (.error e, [])
  | .ok jobs =>
      (.ok { s with
              workflows := s.workflows ++
                [(wid, { status := .Submitted, start_time := 0,
                         outputs := [], downloaded := [] })] },
        [.submitJob pid jobs])

/-- A file visible on the remote side; its identity is name plus size
(spec §4.2, identity check "name + size"). -/
structure RemoteFile where
  name : String
  size : Nat
  deriving DecidableEq, Repr

/-- A local file to transfer, identified by path and size. -/
structure LocalFile where
  path : String
  size : Nat
  deriving DecidableEq, Repr

/-- The remote directory state: the files currently present. -/
abbrev RemoteDir := List RemoteFile

/-- Identity check of the Transfer Manager (§4.2): a local file is
"already transferred" when a remote file of matching name and size
exists at the destination. -/
def matchesRemote (f : LocalFile) (dir : RemoteDir) : Bool :=
  dir.any fun r => r.name == f.path && r.size == f.size

/-- Modelled from the spec: transfer of one file by `upload` (§4.2) —
skip when a file of matching identity already exists remotely,
otherwise transfer it, overwriting any stale remote file of the same
name. Returns whether the file was actually transferred, and the new
remote state. -/
def uploadOne (dir : RemoteDir) (f : LocalFile) : Bool × RemoteDir :=
  if matchesRemote f dir then
    (false, dir)
  else
    (true, dir.filter (fun r => r.name != f.path) ++ [{ name := f.path, size := f.size }])

/-- Outcome of one `upload` batch: the paths actually transferred, the
paths skipped by the identity check, and the new remote state (§4.2:
"Returns the set of paths that were actually transferred plus the set
skipped"). -/
structure UploadResult where
  transferred : List String
  skipped : List String
  newDir : RemoteDir
  deriving DecidableEq, Repr

/-- Modelled from the spec: `upload(local_paths, remote_location)`
(§4.2) — for each local path, skip it if a file of matching identity
already exists at the corresponding remote path, otherwise transfer
it. The Python implementation is not among the available sources. -/
def upload : List LocalFile → RemoteDir → UploadResult
  | [], dir => { transferred := [], skipped := [], newDir := dir }
  | f :: fs, dir =>
      let step := uploadOne dir f
      let rest := upload fs step.2
      if step.1 then
        { rest with transferred := f.path :: rest.transferred }
      else
        { rest with skipped := f.path :: rest.skipped }

/-- Structured values of the persisted record (session_data.json):
null, strings, numbers, arrays and objects. -/
inductive JVal
  | jnull
  | jstr (s : String)
  | jnum (n : Nat)
  | jarr (xs : List JVal)
  | jobj (fields : List (String × JVal))

/-- Encoding of an optional string field. -/
def encOptStr : Option String → JVal
  | none => .jnull
  | some s => .jstr s

/-- Decoding of an optional string field. -/
def decOptStr : JVal → Option (Option String)
  | .jnull => some none
  | .jstr s => some (some s)
  | _ => none

/-- Encoding of one parameter value, keeping its literal/file tag. -/
def encParam : ParamValue → JVal
  | .literal s => .jobj [("type", .jstr "literal"), ("value", .jstr s)]
  | .fileRef p => .jobj [("type", .jstr "file"), ("value", .jstr p)]

/-- Lookup of a field in a decoded object. -/
def jGet : List (String × JVal) → String → Option JVal
  | [], _ => none
  | (k, v) :: rest, key => if k = key then some v else jGet rest key

/-- Extraction of a string field. -/
def decJStr : Option JVal → Option String
  | some (.jstr s) => some s
  | _ => none

/-- Extraction of a numeric field. -/
def decJNum : Option JVal → Option Nat
  | some (.jnum n) => some n
  | _ => none

/-- Decoding of one parameter value. -/
def decParam : JVal → Option ParamValue
  | .jobj fields => do
      let t ← decJStr (jGet fields "type")
      let s ← decJStr (jGet fields "value")
      if t = "literal" then some (.literal s)
      else if t = "file" then some (.fileRef s)
      else none
  | _ => none

/-- Decoding of a list of parameter values. -/
def decParams : List JVal → Option (List ParamValue)
  | [] => some []
  | x :: xs => do
      let p ← decParam x
      let ps ← decParams xs
      pure (p :: ps)

/-- Encoding of an input-settings entry value: single values keep the
parameter encoding, list values become arrays. -/
def encInput : InputValue → JVal
  | .single v => encParam v
  | .many vs => .jarr (vs.map encParam)

/-- Decoding of an input-settings entry value. -/
def decInput : JVal → Option InputValue
  | .jarr xs => (decParams xs).map .many
  | v => (decParam v).map .single

/-- Decoding of the input-settings object fields. -/
def decSettingsList : List (String × JVal) → Option InputSettings
  | [] => some []
  | (k, v) :: rest => do
      let iv ← decInput v
      let tail ← decSettingsList rest
      pure ((k, iv) :: tail)

/-- Encoding of the optional input settings. -/
def encOptSettings : Option InputSettings → JVal
  | none => .jnull
  | some settings => .jobj (settings.map fun kv => (kv.1, encInput kv.2))

/-- Decoding of the optional input settings. -/
def decOptSettings : JVal → Option (Option InputSettings)
  | .jnull => some none
  | .jobj fs => (decSettingsList fs).map some
  | _ => none

/-- Name under which each workflow status is persisted. -/
def statusName : WfStatus → String
  | .Submitted => "Submitted"
  | .Running => "Running"
  | .Finished => "Finished"
  | .Failed => "Failed"
  | .Killed => "Killed"
  | .Unknown => "Unknown"

/-- Decoding of a workflow status from its persisted name. -/
def decStatus : JVal → Option WfStatus
  | .jstr s =>
      if s = "Submitted" then some .Submitted
      else if s = "Running" then some .Running
      else if s = "Finished" then some .Finished
      else if s = "Failed" then some .Failed
      else if s = "Killed" then some .Killed
      else if s = "Unknown" then some .Unknown
      else none
  | _ => none

/-- Decoding of a list of strings (outputs, downloaded set). -/
def decStrList : List JVal → Option (List String)
  | [] => some []
  | .jstr s :: xs => (decStrList xs).map (s :: ·)
  | _ => none

/-- Encoding of one workflow record. -/
def encRecord (r : WorkflowRecord) : JVal :=
  .jobj [("status", .jstr (statusName r.status)),
         ("start_time", .jnum r.start_time),
         ("outputs", .jarr (r.outputs.map .jstr)),
         ("downloaded", .jarr (r.downloaded.map .jstr))]

/-- Extraction of a string-array field. -/
def decJStrList : Option JVal → Option (List String)
  | some (.jarr xs) => decStrList xs
  | _ => none

/-- Decoding of one workflow record. -/
def decRecord : JVal → Option WorkflowRecord
  | .jobj fields => do
      let st ← (jGet fields "status").bind decStatus
      let t ← decJNum (jGet fields "start_time")
      let outs ← decJStrList (jGet fields "outputs")
      let dls ← decJStrList (jGet fields "downloaded")
      pure { status := st, start_time := t, outputs := outs, downloaded := dls }
  | _ => none

/-- Decoding of the workflows inventory fields. -/
def decWorkflowsList : List (String × JVal) → Option (List (String × WorkflowRecord))
  | [] => some []
  | (k, v) :: rest => do
      let r ← decRecord v
      let tail ← decWorkflowsList rest
      pure ((k, r) :: tail)

/-- Modelled from the spec: `save(session)` (§4.4) serializes the full
Session State — identity fields, locations, input settings and all
WorkflowRecords — to one structured record (session_data.json,
`doc/vipsession.md` "Session Backup"). The Python implementation is
not among the available sources. -/
def save (s : Session) : JVal :=
  .jobj [("session_name", .jstr s.session_name),
         ("pipeline_id", encOptStr s.pipeline_id),
         ("input_settings", encOptSettings s.input_settings),
         ("local_input_dir", encOptStr s.local_input_dir),
         ("local_output_dir", encOptStr s.local_output_dir),
         ("vip_input_dir", encOptStr s.vip_input_dir),
         ("vip_output_dir", encOptStr s.vip_output_dir),
         ("workflows", .jobj (s.workflows.map fun kv => (kv.1, encRecord kv.2)))]

/-- Decoding of the workflows-inventory field. -/
def decWfObj : JVal → Option (List (String × WorkflowRecord))
  | .jobj fs => decWorkflowsList fs
  | _ => none

/-- Modelled from the spec: `load` (§4.4) hydrates a Session State
from a persisted record of the layout written by `save`, returning
`none` (not an error) when the record does not have that layout. -/
def load : JVal → Option Session
  | .jobj fields => do
      let n ← decJStr (jGet fields "session_name")
      let pidV ← (jGet fields "pipeline_id").bind decOptStr
      let insV ← (jGet fields "input_settings").bind decOptSettings
      let lidV ← (jGet fields "local_input_dir").bind decOptStr
      let lodV ← (jGet fields "local_output_dir").bind decOptStr
      let vidV ← (jGet fields "vip_input_dir").bind decOptStr
      let vodV ← (jGet fields "vip_output_dir").bind decOptStr
      let wfV ← (jGet fields "workflows").bind decWfObj
      pure { session_name := n, pipeline_id := pidV, input_settings := insV,
             local_input_dir := lidV, local_output_dir := lodV,
             vip_input_dir := vidV, vip_output_dir := vodV, workflows := wfV }
  | _ => none

/-- A path on VIP servers, abstracted as the owning session's segment
under `/vip/Home/API/` plus a path relative to that segment (see the
defaults table of `doc/vipsession.md`: each session's temporary data
lives under `/vip/Home/API/<session_name>/`). -/
structure RemotePath where
  owner : String
  rel : String
  deriving DecidableEq, Repr

/-- The remote store: which paths currently hold data on VIP. -/
abbrev RemoteStore := List RemotePath

/-- The slice of session state relevant to input-data ownership: the
session's name and where its remote inputs live. -/
structure SessionRef where
  name : String
  inputLoc : RemotePath
  deriving DecidableEq, Repr

/-- A fresh session's reference: its inputs live under its own segment
(`/vip/Home/API/<name>/INPUTS`). -/
def mkSessionRef (name : String) : SessionRef :=
  { name := name, inputLoc := { owner := name, rel := "INPUTS" } }

/-- The remote path at which one uploaded dataset file lands. -/
def uploadedPath (s : SessionRef) (file : String) : RemotePath :=
  { owner := s.inputLoc.owner, rel := s.inputLoc.rel ++ "/" ++ file }

/-- Modelled from the spec: `upload_inputs` places the dataset files
under the session's remote input location. -/
def upload_inputs (s : SessionRef) (files : List String) (store : RemoteStore) :
    RemoteStore :=
  store ++ files.map (uploadedPath s)

/-- Modelled from `doc/vipsession.md` ("With get_inputs()"):
`get_inputs(other)` makes this session use the other session's remote
inputs instead of uploading its own; the data still belongs to the
other session. -/
def get_inputs (s : SessionRef) (src : SessionRef) : SessionRef :=
  { s with inputLoc := src.inputLoc }

/-- Modelled from the spec and `doc/vipsession.md`: `finish()` removes
the session's own temporary data from VIP servers — everything under
its own segment `/vip/Home/API/<name>/` — and nothing else; in
particular inputs borrowed through `get_inputs` are not removed,
because they belong to the other session. -/
def finish (s : SessionRef) (store : RemoteStore) : RemoteStore :=
  store.filter fun p => p.owner != s.name

/-- Python-level exception kinds relevant to the API layer of
`vip.py`. -/
inductive PyError
  | runtimeError (msg : String)
  | valueError (msg : String)
  deriving DecidableEq, Repr

/-- A raw response from the VIP RESTful API: HTTP status code, an
error payload when the platform reports an issue, and the body. -/
structure ApiResponse where
  statusCode : Nat
  errorCode : Option Nat
  body : String
  deriving DecidableEq, Repr

/-- Modelled from the README ("Raised errors" / `detect_errors`):
inspects a raw response and reports the VIP issue it carries, if any —
a non-200 HTTP status or an error payload from the platform. The
`vip.py` module is not among the available sources. -/
def detect_errors (r : ApiResponse) : Option String :=
  if r.statusCode ≠ 200 then
    some ("HTTP error: " ++ toString r.statusCode)
  else
    match r.errorCode with
    | some c => some ("VIP error " ++ toString c ++ ": " ++ r.body)
    | none => none

/-- Modelled from the README ("Raised errors" / `manage_errors`): any
detected VIP issue is raised as a RuntimeError; otherwise the body is
returned. -/
def manage_errors (r : ApiResponse) : Except PyError String :=
  match detect_errors r with
  | some msg => .error (.runtimeError msg)
  | none => .ok r.body

/-- The API functions exposed by `vip.py`, as listed at the spec's
gateway interface boundary (§6). -/
inductive ApiFunction
  | submit_job
  | get_job_status
  | list_directory
  | upload_file
  | download_file
  | delete_path
  deriving DecidableEq, Repr

/-- Modelled from the README: every API function of `vip.py` routes
its raw response through `manage_errors`, so VIP issues surface
uniformly, whatever the function called. -/
def vipCall (fn : ApiFunction) (r : ApiResponse) :
    Except PyError (ApiFunction × String) :=
  (manage_errors r).map fun body => (fn, body)

/-- The archive filename with its own (last) extension stripped:
the directory name the spec's words prescribe for extraction.
Comparison definition, written from the spec sentence ("strip the
archive's own extension"), for the extraction-naming claim. -/
def stripLastExt (s : String) : String :=
  let cs := s.toList
  if cs.contains '.' then
    String.mk (((cs.reverse.dropWhile fun c => c ≠ '.').drop 1).reverse)
  else s

/-- Per `doc/vipsession.md` ("Pipeline Outputs"): a downloaded tarball
is extracted "to a folder named after that archive", and the shown
output tree names that folder `job_results.tgz` — the full archive
filename, extension kept. -/
def extractionDirName (archive : String) : String :=
  archive

/-- An archive output: its filename and the member files inside. -/
structure ArchiveOutput where
  filename : String
  members : List String
  deriving DecidableEq, Repr

/-- Local paths produced by downloading one archive output into a
workflow directory and extracting it, following the output tree of
`doc/vipsession.md` ("Pipeline Outputs"). -/
def extractedPaths (wfDir : String) (ar : ArchiveOutput) : List String :=
  ar.members.map fun m => wfDir ++ "/" ++ extractionDirName ar.filename ++ "/" ++ m

end VipClient

namespace VipClient

theorem isTerminal_refresh (rec : WorkflowRecord) (rep : GatewayReport)
    (h : isTerminal rec.status = true) :
    isTerminal (refresh rec rep).status = true := by
  unfold refresh
  by_cases hrep : isTerminal rep.status = true
  · simp [hrep]
  · simp only [Bool.not_eq_true] at hrep
    simp [h, hrep]

theorem get_put_same (s : Session) (p : IdentityProp) (v : Option String) :
    (s.put p v).get p = v := by
  cases p <;> rfl

theorem listLengths_all_single {l : InputSettings}
    (h : ∀ kv ∈ l, ∃ v, kv.2 = InputValue.single v) :
    listLengths l = [] := by
  induction l with
  | nil => rfl
  | cons kv rest ih =>
      obtain ⟨v, hv⟩ := h kv (List.mem_cons_self kv rest)
      have hrest : ∀ kv ∈ rest, ∃ v, kv.2 = InputValue.single v :=
        fun kv2 h2 => h kv2 (List.mem_cons_of_mem kv h2)
      simp [listLengths, List.filterMap_cons, hv] at *
      exact ih hrest

theorem mem_listLengths {settings : InputSettings} {k : String} {vs : List ParamValue}
    (h : (k, InputValue.many vs) ∈ settings) :
    vs.length ∈ listLengths settings := by
  unfold listLengths
  rw [List.mem_filterMap]
  exact ⟨(k, InputValue.many vs), h, rfl⟩

theorem listsConsistent_eq {settings : InputSettings}
    (h : listsConsistent settings = true)
    {a b : Nat} (ha : a ∈ listLengths settings) (hb : b ∈ listLengths settings) :
    a = b := by
  unfold listsConsistent at h
  cases hl : listLengths settings with
  | nil => simp [hl] at ha
  | cons l ls =>
      rw [hl] at h ha hb
      simp only [List.all_eq_true, beq_iff_eq] at h
      have key : ∀ x ∈ l :: ls, x = l := by
        intro x hx
        rcases List.mem_cons.mp hx with h1 | h2
        · exact h1
        · exact h x h2
      rw [key a ha, key b hb]

theorem lookup_middle {l r : List (String × ParamValue)} {k : String} {v : ParamValue}
    (h : k ∉ l.map Prod.fst) :
    List.lookup k (l ++ (k, v) :: r) = some v := by
  induction l with
  | nil => simp [List.lookup]
  | cons kv rest ih =>
      have hk : k ≠ kv.1 := by
        intro he
        exact h (by simp [he])
      have hrest : k ∉ rest.map Prod.fst := fun hm => h (List.mem_cons_of_mem _ hm)
      have : (k == kv.1) = false := beq_false_of_ne hk
      simp [List.lookup, this]
      exact ih hrest

theorem listLengths_append (a b : InputSettings) :
    listLengths (a ++ b) = listLengths a ++ listLengths b := by
  unfold listLengths
  exact List.filterMap_append a b _

theorem jobSpec_split (pre post : InputSettings) (name : String)
    (vs : List ParamValue) (i : Nat) :
    jobSpec (pre ++ (name, InputValue.many vs) :: post) i =
      jobSpec pre i ++ (name, vs.getD i (.literal "")) :: jobSpec post i := by
  unfold jobSpec
  simp

/-- C2: once a workflow record's status is terminal, no sequence of
subsequent `refresh` calls — whatever statuses the Remote Gateway
reports — can change it to a non-terminal value. -/
theorem refresh_keeps_terminal (rec : WorkflowRecord) (reps : List GatewayReport)
    (h : isTerminal rec.status = true) :
    isTerminal (refreshAll rec reps).status = true := by
  induction reps generalizing rec with
  | nil => simpa [refreshAll] using h
  | cons r rs ih =>
      have h1 : isTerminal (refresh rec r).status = true := isTerminal_refresh rec r h
      simpa [refreshAll] using ih (refresh rec r) h1

/-- Witness for C2: a concrete Finished record stays terminal across a
gateway report sequence that tries to downgrade it to Running and then
to Submitted. -/
theorem refresh_keeps_terminal_witness :
    isTerminal
      (refreshAll
        { status := .Finished, start_time := 5, outputs := ["out.tgz"], downloaded := [] }
        [ { status := .Running, start_time := 5, outputs := [] },
          { status := .Submitted, start_time := 5, outputs := [] } ]).status = true :=
  refresh_keeps_terminal
    { status := .Finished, start_time := 5, outputs := ["out.tgz"], downloaded := [] }
    [ { status := .Running, start_time := 5, outputs := [] },
      { status := .Submitted, start_time := 5, outputs := [] } ]
    (by decide)

/-- C3: for every session and identity property, (a) setting the
property while it is defined with a different value fails with the
already-set error (and, the call producing no session, leaves the
property unchanged); (b) setting it to the value it already holds
succeeds, returning the session unchanged; (c) after `clear`, which is
allowed at any time, setting any value succeeds and the property then
holds that value. -/
theorem set_once_guard (s : Session) (p : IdentityProp) (v w : String)
    (hdef : s.get p = some w) (hne : w ≠ v) :
    s.set p v = .error (.alreadySet (propName p) w v)
    ∧ s.set p w = .ok s
    ∧ ∃ s2, (s.clear p).set p v = .ok s2 ∧ s2.get p = some v := by
  refine ⟨?_, ?_, ?_⟩
  · simp [Session.set, hdef, hne]
  · simp [Session.set, hdef]
  · refine ⟨(s.clear p).put p (some v), ?_, ?_⟩
    · simp [Session.set, Session.clear, get_put_same]
    · exact get_put_same _ p (some v)

/-- Witness for C3: a concrete session whose `local_input_dir` is set
to "/path/to/may/data"; re-setting it to "/path/to/my/data" errors,
re-setting the same value succeeds, and clear-then-set succeeds. -/
theorem set_once_guard_witness :
    ({ session_name := "my-session", local_input_dir := some "/path/to/may/data" } :
        Session).get .local_input_dir = some "/path/to/may/data"
    ∧ ("/path/to/may/data" : String) ≠ "/path/to/my/data"
    ∧ (({ session_name := "my-session", local_input_dir := some "/path/to/may/data" } :
        Session).set .local_input_dir "/path/to/my/data"
      = .error (.alreadySet "local_input_dir" "/path/to/may/data" "/path/to/my/data")
    ∧ ({ session_name := "my-session", local_input_dir := some "/path/to/may/data" } :
        Session).set .local_input_dir "/path/to/may/data"
      = .ok { session_name := "my-session", local_input_dir := some "/path/to/may/data" }
    ∧ ∃ s2,
        (({ session_name := "my-session", local_input_dir := some "/path/to/may/data" } :
            Session).clear .local_input_dir).set .local_input_dir "/path/to/my/data" = .ok s2
        ∧ s2.get .local_input_dir = some "/path/to/my/data") :=
  ⟨by decide, by decide,
    set_once_guard
      { session_name := "my-session", local_input_dir := some "/path/to/may/data" }
      .local_input_dir "/path/to/my/data" "/path/to/may/data"
      (by decide) (by decide)⟩

/-- C8: for every session whose location properties are not
overridden, the derived locations are exactly
`/vip/Home/API/<session_name>/INPUTS`,
`/vip/Home/API/<session_name>/OUTPUTS` and
`vip_outputs/<session_name>`; and a fresh session's workflows
inventory is the empty mapping. -/
theorem default_locations (s : Session) (name : String)
    (h1 : s.vip_input_dir = none) (h2 : s.vip_output_dir = none)
    (h3 : s.local_output_dir = none) :
    s.effVipInputDir = "/vip/Home/API/" ++ s.session_name ++ "/INPUTS"
    ∧ s.effVipOutputDir = "/vip/Home/API/" ++ s.session_name ++ "/OUTPUTS"
    ∧ s.effLocalOutputDir = "vip_outputs/" ++ s.session_name
    ∧ (newSession name).workflows = [] := by
  refine ⟨?_, ?_, ?_, rfl⟩
  · simp [Session.effVipInputDir, h1, defaultVipInputDir]
  · simp [Session.effVipOutputDir, h2, defaultVipOutputDir]
  · simp [Session.effLocalOutputDir, h3, defaultLocalOutputDir]

/-- Witness for C8: the fresh session named "my-session" has the three
documented default locations and an empty workflows inventory. -/
theorem default_locations_witness :
    (newSession "my-session").effVipInputDir = "/vip/Home/API/my-session/INPUTS"
    ∧ (newSession "my-session").effVipOutputDir = "/vip/Home/API/my-session/OUTPUTS"
    ∧ (newSession "my-session").effLocalOutputDir = "vip_outputs/my-session"
    ∧ (newSession "my-session").workflows = [] := by
  have h := default_locations (newSession "my-session") "my-session" rfl rfl rfl
  simpa using h

/-- C4: when exactly one parameter holds a list of length N and every
other parameter holds a single value (parameter names being distinct,
as keys of a dictionary), the expansion performed by `submit` produces
exactly N job specifications within the one workflow submission; the
i-th job binds the list parameter to the i-th list element, and every
single-valued parameter keeps its value in all N jobs. -/
theorem fanout_correct (pre post : InputSettings) (name : String) (vs : List ParamValue)
    (hpre : ∀ kv ∈ pre, ∃ v, kv.2 = InputValue.single v)
    (hpost : ∀ kv ∈ post, ∃ v, kv.2 = InputValue.single v)
    (hnodup : ((pre ++ (name, InputValue.many vs) :: post).map Prod.fst).Nodup) :
    ∃ jobs, expandJobs (pre ++ (name, InputValue.many vs) :: post) = .ok jobs
      ∧ jobs.length = vs.length
      ∧ (∀ i, (hi : i < vs.length) →
          List.lookup name (jobs.getD i []) = some vs[i])
      ∧ (∀ i, i < vs.length → ∀ k v,
          (k, InputValue.single v) ∈ pre ++ (name, InputValue.many vs) :: post →
          (k, v) ∈ jobs.getD i []) := by
  set settings := pre ++ (name, InputValue.many vs) :: post with hsettings
  have hLL : listLengths settings = [vs.length] := by
    rw [hsettings, listLengths_append, listLengths_all_single hpre]
    have : listLengths ((name, InputValue.many vs) :: post) =
        vs.length :: listLengths post := by
      simp [listLengths, List.filterMap_cons]
    rw [this, listLengths_all_single hpost]
    rfl
  have hcons : listsConsistent settings = true := by
    simp [listsConsistent, hLL]
  have hnb : nbJobs settings = vs.length := by
    simp [nbJobs, hLL]
  refine ⟨(List.range vs.length).map (jobSpec settings), ?_, ?_, ?_, ?_⟩
  · simp [expandJobs, hcons, hnb]
  · simp
  · intro i hi
    have hget : ((List.range vs.length).map (jobSpec settings)).getD i [] =
        jobSpec settings i := by
      rw [List.getD_eq_getElem _ _ (by simpa using hi)]
      simp
    rw [hget, hsettings, jobSpec_split]
    have hnm : name ∉ (jobSpec pre i).map Prod.fst := by
      have h1 : (jobSpec pre i).map Prod.fst = pre.map Prod.fst := by
        simp [jobSpec, Function.comp]
      rw [h1]
      have h2 : (settings.map Prod.fst) =
          pre.map Prod.fst ++ name :: post.map Prod.fst := by
        simp [hsettings]
      rw [h2] at hnodup
      have h3 := (List.nodup_append.mp hnodup).2.2
      intro hmem
      exact h3 hmem (List.mem_cons_self name _)
    rw [lookup_middle hnm]
    congr 1
    exact List.getD_eq_getElem vs (.literal "") hi
  · intro i _ k v hkv
    have : (k, v) ∈ jobSpec settings i := by
      unfold jobSpec
      refine List.mem_map.mpr ⟨(k, InputValue.single v), ?_, rfl⟩
      rw [hsettings]
      exact hkv
    have hget : ((List.range vs.length).map (jobSpec settings)).getD i [] =
        jobSpec settings i := by
      rename_i hi
      rw [List.getD_eq_getElem _ _ (by simpa using hi)]
      simp
    rw [hget]
    exact this

/-- Witness for C4: the doc's scenario — settings with a two-element
list parameter "nifti" and single-valued "directives" and "license" —
expand to exactly two jobs, job i taking the i-th file, both jobs
sharing the single-valued parameters. -/
theorem fanout_correct_witness :
    ∃ jobs,
      expandJobs
          [("directives", .single (.literal "-all")),
           ("nifti", .many [.fileRef "file_1.nii.gz", .fileRef "file_2.nii.gz"]),
           ("license", .single (.fileRef "license.txt"))] = .ok jobs
      ∧ jobs.length = 2
      ∧ List.lookup "nifti" (jobs.getD 0 []) = some (.fileRef "file_1.nii.gz")
      ∧ List.lookup "nifti" (jobs.getD 1 []) = some (.fileRef "file_2.nii.gz")
      ∧ ("directives", ParamValue.literal "-all") ∈ jobs.getD 0 []
      ∧ ("directives", ParamValue.literal "-all") ∈ jobs.getD 1 [] := by
  obtain ⟨jobs, h1, h2, h3, h4⟩ :=
    fanout_correct
      [("directives", InputValue.single (.literal "-all"))]
      [("license", InputValue.single (.fileRef "license.txt"))]
      "nifti" [.fileRef "file_1.nii.gz", .fileRef "file_2.nii.gz"]
      (by intro kv hkv; simp at hkv; exact ⟨.literal "-all", by simp [hkv]⟩)
      (by intro kv hkv; simp at hkv; exact ⟨.fileRef "license.txt", by simp [hkv]⟩)
      (by simp)
  refine ⟨jobs, by simpa using h1, by simpa using h2, ?_, ?_, ?_, ?_⟩
  · simpa using h3 0 (by simp)
  · simpa using h3 1 (by simp)
  · exact h4 0 (by simp) "directives" (.literal "-all") (by simp)
  · exact h4 1 (by simp) "directives" (.literal "-all") (by simp)

/-- C6: when the input settings hold two list-valued parameters of
different lengths, `submit` fails with the invalid-input configuration
error, makes no Remote Gateway call (empty call trace), and registers
no WorkflowRecord (no session is produced by the failing call). -/
theorem mismatched_lists_reject (s : Session) (pid wid : String)
    (settings : InputSettings) (k1 k2 : String) (vs1 vs2 : List ParamValue)
    (h1 : (k1, InputValue.many vs1) ∈ settings)
    (h2 : (k2, InputValue.many vs2) ∈ settings)
    (hne : vs1.length ≠ vs2.length) :
    submit s pid settings wid = (.error (.invalidInput "mismatched list lengths"), []) := by
  have hcons : listsConsistent settings = false := by
    by_contra h
    have h' : listsConsistent settings = true := by
      cases hc : listsConsistent settings
      · exact absurd hc h
      · rfl
    exact hne (listsConsistent_eq h' (mem_listLengths h1) (mem_listLengths h2))
  unfold submit expandJobs
  rw [hcons]
  rfl

/-- Witness for C6: settings with a two-element list "nifti" and a
one-element list "license" are rejected with no gateway call. -/
theorem mismatched_lists_reject_witness :
    submit (newSession "my-session") "my_app/0.1"
        [("nifti", .many [.fileRef "a.nii", .fileRef "b.nii"]),
         ("license", .many [.fileRef "license.txt"])] "workflow-1"
      = (.error (.invalidInput "mismatched list lengths"), []) :=
  mismatched_lists_reject (newSession "my-session") "my_app/0.1" "workflow-1"
    [("nifti", .many [.fileRef "a.nii", .fileRef "b.nii"]),
     ("license", .many [.fileRef "license.txt"])]
    "nifti" "license" [.fileRef "a.nii", .fileRef "b.nii"] [.fileRef "license.txt"]
    (by simp) (by simp) (by decide)

theorem matchesRemote_uploadOne_self (dir : RemoteDir) (f : LocalFile) :
    matchesRemote f (uploadOne dir f).2 = true := by
  unfold uploadOne
  by_cases h : matchesRemote f dir = true
  · simp [h]
  · simp only [Bool.not_eq_true] at h
    simp only [h, Bool.false_eq_true, if_neg, ite_false]
    unfold matchesRemote
    rw [List.any_append]
    simp

theorem matchesRemote_uploadOne_other (dir : RemoteDir) (f g : LocalFile)
    (hm : matchesRemote f dir = true) (hne : g.path ≠ f.path) :
    matchesRemote f (uploadOne dir g).2 = true := by
  unfold uploadOne
  by_cases h : matchesRemote g dir = true
  · simpa [h] using hm
  · simp only [Bool.not_eq_true] at h
    simp only [h, Bool.false_eq_true, if_neg, ite_false]
    unfold matchesRemote at hm ⊢
    rw [List.any_append]
    obtain ⟨r, hr, hpr⟩ := List.any_eq_true.mp hm
    have hrname : r.name = f.path := by
      have := (Bool.and_eq_true _ _).mp hpr
      exact beq_iff_eq.mp this.1
    have hkeep : r ∈ dir.filter fun q => q.name != g.path := by
      rw [List.mem_filter]
      refine ⟨hr, ?_⟩
      rw [bne_iff_ne]
      rw [hrname]
      exact fun he => hne he.symm
    have : (dir.filter fun q => q.name != g.path).any
        (fun q => q.name == f.path && q.size == f.size) = true :=
      List.any_eq_true.mpr ⟨r, hkeep, hpr⟩
    simp [this]

theorem upload_newDir_cons (f : LocalFile) (fs : List LocalFile) (dir : RemoteDir) :
    (upload (f :: fs) dir).newDir = (upload fs (uploadOne dir f).2).newDir := by
  show (let step := uploadOne dir f
        let rest := upload fs step.2
        if step.1 then { rest with transferred := f.path :: rest.transferred }
        else { rest with skipped := f.path :: rest.skipped }).newDir = _
  by_cases h : (uploadOne dir f).1 = true <;> simp [h]

theorem matchesRemote_upload_preserved (fs : List LocalFile) (dir : RemoteDir)
    (f : LocalFile) (hnm : f.path ∉ fs.map LocalFile.path)
    (hm : matchesRemote f dir = true) :
    matchesRemote f (upload fs dir).newDir = true := by
  induction fs generalizing dir with
  | nil => simpa [upload] using hm
  | cons g gs ih =>
      have hgne : g.path ≠ f.path := by
        intro he
        exact hnm (by simp [he])
      have hrest : f.path ∉ gs.map LocalFile.path := fun h => hnm (by simp [h])
      rw [upload_newDir_cons]
      exact ih _ hrest (matchesRemote_uploadOne_other dir f g hm hgne)

theorem matchesRemote_after_upload (fs : List LocalFile) (dir : RemoteDir)
    (hnodup : (fs.map LocalFile.path).Nodup) :
    ∀ f ∈ fs, matchesRemote f (upload fs dir).newDir = true := by
  induction fs generalizing dir with
  | nil => intro f hf; simp at hf
  | cons g gs ih =>
      intro f hf
      have hsplit : g.path ∉ gs.map LocalFile.path ∧ (gs.map LocalFile.path).Nodup :=
        List.nodup_cons.mp hnodup
      have hnodup2 : (gs.map LocalFile.path).Nodup := hsplit.2
      rcases List.mem_cons.mp hf with h | h
      · subst h
        have hnm : f.path ∉ gs.map LocalFile.path := hsplit.1
        rw [upload_newDir_cons]
        exact matchesRemote_upload_preserved gs _ f hnm
          (matchesRemote_uploadOne_self dir f)
      · rw [upload_newDir_cons]
        exact ih _ hnodup2 f h

theorem upload_all_matching (fs : List LocalFile) (dir : RemoteDir)
    (h : ∀ f ∈ fs, matchesRemote f dir = true) :
    upload fs dir =
      { transferred := [], skipped := fs.map LocalFile.path, newDir := dir } := by
  induction fs with
  | nil => rfl
  | cons g gs ih =>
      have hg : matchesRemote g dir = true := h g (List.mem_cons_self g gs)
      have hgs : ∀ f ∈ gs, matchesRemote f dir = true :=
        fun f hf => h f (List.mem_cons_of_mem g hf)
      unfold upload
      simp [uploadOne, hg, ih hgs]

/-- C5: `upload` is idempotent on an unchanged source — after one
upload of a set of local files (distinct paths), running the identical
upload again against the resulting remote state transfers zero files,
every path being classified as skipped by the identity check, and
leaves the remote state unchanged. -/
theorem upload_idempotent (fs : List LocalFile) (dir : RemoteDir)
    (hnodup : (fs.map LocalFile.path).Nodup) :
    upload fs (upload fs dir).newDir =
      { transferred := [],
        skipped := fs.map LocalFile.path,
        newDir := (upload fs dir).newDir } :=
  upload_all_matching fs (upload fs dir).newDir
    (matchesRemote_after_upload fs dir hnodup)

/-- Witness for C5: a three-file dataset, one file of which already
exists remotely with matching identity; re-running the identical
upload after the first one transfers nothing and skips all three
paths. -/
theorem upload_idempotent_witness :
    upload
        [{ path := "a.nii", size := 10 }, { path := "b.nii", size := 20 },
         { path := "c.nii", size := 30 }]
        (upload
          [{ path := "a.nii", size := 10 }, { path := "b.nii", size := 20 },
           { path := "c.nii", size := 30 }]
          [{ name := "a.nii", size := 10 }]).newDir =
      { transferred := [],
        skipped := ["a.nii", "b.nii", "c.nii"],
        newDir := (upload
          [{ path := "a.nii", size := 10 }, { path := "b.nii", size := 20 },
           { path := "c.nii", size := 30 }]
          [{ name := "a.nii", size := 10 }]).newDir } := by
  have h := upload_idempotent
    [{ path := "a.nii", size := 10 }, { path := "b.nii", size := 20 },
     { path := "c.nii", size := 30 }]
    [{ name := "a.nii", size := 10 }]
    (by decide)
  simpa using h

theorem decOptStr_enc (x : Option String) : decOptStr (encOptStr x) = some x := by
  cases x <;> rfl

theorem decParam_enc (p : ParamValue) : decParam (encParam p) = some p := by
  cases p <;> simp [encParam, decParam, jGet, decJStr]

theorem decParams_enc (vs : List ParamValue) : decParams (vs.map encParam) = some vs := by
  induction vs with
  | nil => rfl
  | cons p ps ih => simp [decParams, decParam_enc, ih]

theorem decInput_enc (v : InputValue) : decInput (encInput v) = some v := by
  cases v with
  | single p => cases p <;> simp [encInput, encParam, decInput, decParam, jGet, decJStr]
  | many vs => simp [encInput, decInput, decParams_enc]

theorem decSettingsList_enc (settings : InputSettings) :
    decSettingsList (settings.map fun kv => (kv.1, encInput kv.2)) = some settings := by
  induction settings with
  | nil => rfl
  | cons kv rest ih => simp [decSettingsList, decInput_enc, ih]

theorem decOptSettings_enc (x : Option InputSettings) :
    decOptSettings (encOptSettings x) = some x := by
  cases x with
  | none => rfl
  | some settings => simp [encOptSettings, decOptSettings, decSettingsList_enc]

theorem decStatus_enc (st : WfStatus) : decStatus (.jstr (statusName st)) = some st := by
  cases st <;> rfl

theorem decStrList_enc (l : List String) : decStrList (l.map .jstr) = some l := by
  induction l with
  | nil => rfl
  | cons s rest ih => simp [decStrList, ih]

theorem decRecord_enc (r : WorkflowRecord) : decRecord (encRecord r) = some r := by
  simp [encRecord, decRecord, jGet, decJStr, decJNum, decJStrList,
    decStatus_enc, decStrList_enc]

theorem decWorkflowsList_enc (wfs : List (String × WorkflowRecord)) :
    decWorkflowsList (wfs.map fun kv => (kv.1, encRecord kv.2)) = some wfs := by
  induction wfs with
  | nil => rfl
  | cons kv rest ih => simp [decWorkflowsList, decRecord_enc, ih]

/-- C1: the persistence round-trip law — `load` applied to the record
written by `save`, with no intervening mutation, returns a session
equal to the one saved in all observable fields: `session_name`,
`pipeline_id`, `input_settings`, all location fields, and the full
workflows mapping with each record's status, start time, outputs and
downloaded set. -/
theorem load_save_roundtrip (s : Session) : load (save s) = some s := by
  simp [save, load, jGet, decJStr, decOptStr_enc, decOptSettings_enc,
    decWfObj, decWorkflowsList_enc]

/-- C9: when session B obtained its remote inputs from session A via
`get_inputs` instead of uploading them, `finish()` on B removes only
data owned by B — any store entry it removes is under B's own
segment — and leaves A's uploaded input dataset fully in place; that
dataset is removed by `finish()` on A. -/
theorem finish_frame (a b : String) (hne : a ≠ b)
    (files : List String) (store0 : RemoteStore) :
    (get_inputs (mkSessionRef b) (mkSessionRef a)).inputLoc =
        (mkSessionRef a).inputLoc
    ∧ (∀ p ∈ upload_inputs (mkSessionRef a) files store0,
        p ∉ finish (get_inputs (mkSessionRef b) (mkSessionRef a))
              (upload_inputs (mkSessionRef a) files store0) →
        p.owner = b)
    ∧ (∀ f ∈ files,
        uploadedPath (mkSessionRef a) f ∈
          finish (get_inputs (mkSessionRef b) (mkSessionRef a))
            (upload_inputs (mkSessionRef a) files store0))
    ∧ (∀ f ∈ files,
        uploadedPath (mkSessionRef a) f ∉
          finish (mkSessionRef a) (upload_inputs (mkSessionRef a) files store0)) := by
  refine ⟨rfl, ?_, ?_, ?_⟩
  · intro p hp hnotin
    by_contra hpo
    exact hnotin (List.mem_filter.mpr ⟨hp, by simpa [get_inputs, mkSessionRef] using hpo⟩)
  · intro f hf
    refine List.mem_filter.mpr ⟨?_, ?_⟩
    · exact List.mem_append_right _ (List.mem_map.mpr ⟨f, hf, rfl⟩)
    · simp [uploadedPath, mkSessionRef, get_inputs]
      exact hne
  · intro f hf hmem
    have := (List.mem_filter.mp hmem).2
    simp [uploadedPath, mkSessionRef, finish] at this

/-- Witness for C9: sessions "session-a" and "session-b" sharing the
dataset file "a.nii": finishing B keeps A's uploaded file, finishing A
removes it. -/
theorem finish_frame_witness :
    (get_inputs (mkSessionRef "session-b") (mkSessionRef "session-a")).inputLoc =
        (mkSessionRef "session-a").inputLoc
    ∧ (∀ p ∈ upload_inputs (mkSessionRef "session-a") ["a.nii"] [],
        p ∉ finish (get_inputs (mkSessionRef "session-b") (mkSessionRef "session-a"))
              (upload_inputs (mkSessionRef "session-a") ["a.nii"] []) →
        p.owner = "session-b")
    ∧ (∀ f ∈ ["a.nii"],
        uploadedPath (mkSessionRef "session-a") f ∈
          finish (get_inputs (mkSessionRef "session-b") (mkSessionRef "session-a"))
            (upload_inputs (mkSessionRef "session-a") ["a.nii"] []))
    ∧ (∀ f ∈ ["a.nii"],
        uploadedPath (mkSessionRef "session-a") f ∉
          finish (mkSessionRef "session-a")
            (upload_inputs (mkSessionRef "session-a") ["a.nii"] [])) :=
  finish_frame "session-a" "session-b" (by decide) ["a.nii"] []

/-- C10: every failure reported by the remote-API communication layer
(`vip.py`) surfaces as a raised RuntimeError, for every API function
of the module — a response carrying a VIP issue never yields a
success result nor any other error kind, and the error message is the
detected one. -/
theorem vip_errors_are_runtime (fn : ApiFunction) (r : ApiResponse) (msg : String)
    (hfail : detect_errors r = some msg) :
    vipCall fn r = .error (.runtimeError msg)
    ∧ ∀ e, vipCall fn r = .error e → ∃ m, e = .runtimeError m := by
  constructor
  · simp [vipCall, manage_errors, hfail, Except.map]
  · intro e he
    refine ⟨msg, ?_⟩
    simp [vipCall, manage_errors, hfail, Except.map] at he
    exact he.symm

/-- Witness for C10: a 500-status response to `get_job_status` is
surfaced as a RuntimeError carrying the detected message. -/
theorem vip_errors_are_runtime_witness :
    detect_errors { statusCode := 500, errorCode := none, body := "" }
        = some "HTTP error: 500"
    ∧ (vipCall .get_job_status { statusCode := 500, errorCode := none, body := "" }
        = .error (.runtimeError "HTTP error: 500")
    ∧ ∀ e, vipCall .get_job_status { statusCode := 500, errorCode := none, body := "" }
        = .error e → ∃ m, e = .runtimeError m) :=
  ⟨by decide,
    vip_errors_are_runtime .get_job_status
      { statusCode := 500, errorCode := none, body := "" } "HTTP error: 500" (by decide)⟩

/-- Counterexample for C7 as stated: per the documented output tree,
the tarball `job_results.tgz` downloaded into the workflow directory
`02-02-2023_09:21:23` is extracted into the directory
`job_results.tgz` — the full archive filename — so the member
`file_x` lands at `02-02-2023_09:21:23/job_results.tgz/file_x`; the
path under the extension-stripped name `job_results`, which the claim
prescribes, is not produced. -/
theorem extraction_dir_counterexample :
    extractionDirName "job_results.tgz" ≠ stripLastExt "job_results.tgz"
    ∧ stripLastExt "job_results.tgz" = "job_results"
    ∧ extractedPaths "02-02-2023_09:21:23"
        { filename := "job_results.tgz", members := ["file_x", "file_y"] } =
        ["02-02-2023_09:21:23/job_results.tgz/file_x",
         "02-02-2023_09:21:23/job_results.tgz/file_y"]
    ∧ "02-02-2023_09:21:23/job_results/file_x" ∉
        extractedPaths "02-02-2023_09:21:23"
          { filename := "job_results.tgz", members := ["file_x", "file_y"] } := by
  refine ⟨by decide, by decide, by decide, by decide⟩

/-- C7 (amended): the extraction directory of a downloaded archive
output is named with the archive's full filename — extension kept —
so each member m of archive ar downloaded into workflow directory d is
extracted to d/ar.filename/m. -/
theorem extraction_dir_full_name (wfDir : String) (ar : ArchiveOutput)
    (m : String) (hm : m ∈ ar.members) :
    (wfDir ++ "/" ++ ar.filename ++ "/" ++ m) ∈ extractedPaths wfDir ar := by
  unfold extractedPaths extractionDirName
  exact List.mem_map.mpr ⟨m, hm, rfl⟩

/-- Witness for C7 (amended): the doc's own example — `file_x` of
`job_results.tgz` lands under `02-02-2023_09:21:23/job_results.tgz/`. -/
theorem extraction_dir_full_name_witness :
    ("02-02-2023_09:21:23/job_results.tgz/file_x" : String) ∈
      extractedPaths "02-02-2023_09:21:23"
        { filename := "job_results.tgz", members := ["file_x", "file_y"] } :=
  extraction_dir_full_name "02-02-2023_09:21:23"
    { filename := "job_results.tgz", members := ["file_x", "file_y"] }
    "file_x" (by decide)

end VipClient
